import Mathlib

/-!
Shallow embedding of profanity's `src/xmpp/presence.c` (inbound presence
handling): the capability key resolver `_get_caps_key`, the direct presence
handlers `_available_handler` / `_unavailable_handler`, the room presence
state machine `_room_presence_handler`, and the handler registration table
`presence_add_handlers`.

External collaborators (the stanza accessor layer `stanza.c`, the room
membership registry `muc.c`, and the `prof_handle_*` notification layer) are
not part of the sources; where a definition depends on one of them it is
modelled from the spec and marked `Modelled from the spec:` in its doc
comment.  Machine side effects (notification calls, outbound discovery
queries) are made explicit as returned event and query lists; the crash of
`strdup(NULL)` (undefined behaviour) is made explicit as an `Except` error.
-/

namespace ProfPresence

/-- Parsed JID triple.  Per the spec (section 6) JIDs are consumed pre-parsed
as a `bare@domain/resource` pair; `jid_create` itself is out of scope. -/
structure Jid where
  barejid : String
  resourcepart : String
  deriving DecidableEq

/-- Stanza `type` attribute values distinguished by the presence code
(`STANZA_TYPE_*`); an absent attribute is represented as `none` at use
sites. -/
inductive StanzaType where
  | error
  | unavailable
  | subscribe
  | subscribed
  | unsubscribed
  deriving DecidableEq

/-- Capability advertisement child of a presence document (spec section 6):
optional hash-algorithm attribute (`stanza_caps_get_hash`) and optional
verification string (`stanza_get_caps_str`, the `node#ver` string). -/
structure CapsAd where
  hash : Option String
  capsStr : Option String
  deriving DecidableEq

/-- Parsed inbound presence document (spec section 6: subtype, sender full
JID, optional child elements, multi-user-chat marker, nick-change marker,
optional new nick).  Child elements are `Option (Option String)`: the outer
option is element presence, the inner one is `xmpp_stanza_get_text`, which
may itself return NULL.

Modelled from the spec: the classification of a room stanza as self-presence
(`stanza_is_muc_self_presence`, in `stanza.c`, not among the sources) is
carried as the `selfPresence` attribute of the parsed document ("the
resource-qualified sender JID matches the local user's room occupant
JID"). -/
structure PresenceStanza where
  typ : Option StanzaType
  fromJid : Jid
  statusChild : Option (Option String)
  showChild : Option (Option String)
  priorityChild : Option (Option String)
  idleSeconds : Int
  caps : Option CapsAd
  mucUser : Bool
  selfPresence : Bool
  nickChange : Bool
  newNick : Option String
  deriving DecidableEq

/-- The raw `from` attribute string, reconstructed from the parsed triple
(the sender's full JID). -/
def PresenceStanza.fromFull (s : PresenceStanza) : String :=
  s.fromJid.barejid ++ "/" ++ s.fromJid.resourcepart

/-- Presence kinds of `resource_presence_t`. -/
inductive ResourcePresence where
  | online
  | chat
  | away
  | xa
  | dnd
  deriving DecidableEq

/-- Modelled from the spec: `resource_presence_from_string` lives in the
common utilities, not among the sources.  Spec sections 3 and 7: the kind
enum is online/chat/away/xa/dnd and a missing show/kind text defaults to
"online". -/
def resource_presence_from_string : Option String → ResourcePresence
  | some t =>
    if t = "chat" then ResourcePresence.chat
    else if t = "away" then ResourcePresence.away
    else if t = "xa" then ResourcePresence.xa
    else if t = "dnd" then ResourcePresence.dnd
    else ResourcePresence.online
  | none => ResourcePresence.online

/-- One JID resource's presence, as built by `resource_new` (spec section
3). -/
structure Resource where
  name : String
  presence : ResourcePresence
  status : Option String
  priority : Int
  capsKey : Option String
  deriving DecidableEq

/-- Notification events emitted through the `prof_handle_*` collaborators
(spec section 6, Produced). -/
inductive Event where
  | contactOnline (barejid : String) (res : Resource) (lastActivity : Option Int)
  | contactOffline (barejid resourcepart : String) (status : Option String)
  | leaveRoom (room : String)
  | roomNickChange (room nick : String)
  | roomRosterComplete (room : String)
  | roomMemberOffline (room nick reason : String) (status : Option String)
  | roomMemberNickChange (room oldNick newNick : String)
  | roomMemberOnline (room nick : String) (showText status capsKey : Option String)
  | roomMemberPresence (room nick : String) (showText status capsKey : Option String)
  deriving DecidableEq

/-- Outbound discovery query handed to the transport by
`stanza_create_disco_iq` / `xmpp_send` (spec section 6). -/
structure DiscoQuery where
  id : String
  dest : String
  node : String
  deriving DecidableEq

/-- Membership test of the external capability cache (`caps_contains`); the
cache is consumed as a plain key set. -/
def caps_contains (cache : List String) (key : String) : Bool :=
  cache.contains key

/-- Result of `_get_caps_key`: the discovery queries sent, the returned key
(`Except.error` marks the `strdup(NULL)` call reached when a supported-hash
advertisement has no caps string, which is undefined behaviour), and the
cache, returned unchanged because `_get_caps_key` only ever reads it. -/
structure CapsKeyResult where
  queries : List DiscoQuery
  key : Except Unit (Option String)
  cache : List String

/-- Embedding of `_get_caps_key` (presence.c lines 455-544). -/
def getCapsKey (s : PresenceStanza) (cache : List String) : CapsKeyResult :=
  match s.caps with
  | none => ⟨[], Except.ok none, cache⟩
  | some caps =>
    match caps.hash with
    | some hashType =>
      if hashType = "sha-1" then
        -- supported hash: key is the caps string itself
        match caps.capsStr with
        | some node =>
          ⟨if caps_contains cache node then []
            else [⟨"disco", s.fromFull, node⟩],
           Except.ok (some node), cache⟩
        | none =>
          -- caps_key is NULL here and the function ends in strdup(caps_key)
          ⟨[], Except.error (), cache⟩
      else
        -- unsupported hash: key is the sender's JID
        match caps.capsStr with
        | some node =>
          ⟨if caps_contains cache s.fromFull then []
            else [⟨"disco_" ++ s.fromFull, s.fromFull, node⟩],
           Except.ok (some s.fromFull), cache⟩
        | none => ⟨[], Except.ok (some s.fromFull), cache⟩
    | none =>
      -- legacy capabilities: key is the sender's JID
      match caps.capsStr with
      | some node =>
        ⟨if caps_contains cache s.fromFull then []
          else [⟨"disco_" ++ s.fromFull, s.fromFull, node⟩],
         Except.ok (some s.fromFull), cache⟩
      | none => ⟨[], Except.ok (some s.fromFull), cache⟩

/-- Digit-accumulating loop of C `atoi`: consume leading decimal digits,
stop at the first non-digit. -/
def atoiLoop : List Char → Nat → Nat
  | [], acc => acc
  | c :: cs, acc =>
    if c.isDigit then atoiLoop cs (acc * 10 + (c.toNat - 48)) else acc

/-- Embedding of C `atoi`: skip leading whitespace, optional sign, then
digits; with no conversion possible the result is 0. -/
def atoi (t : String) : Int :=
  let cs := t.toList.dropWhile fun c =>
    c = ' ' ∨ c = '\t' ∨ c = '\n' ∨ c = '\x0b' ∨ c = '\x0c' ∨ c = '\r'
  match cs with
  | [] => 0
  | c :: rest =>
    if c = '-' then -(atoiLoop rest 0 : Int)
    else if c = '+' then (atoiLoop rest 0 : Int)
    else (atoiLoop (c :: rest) 0 : Int)

/-- Status text resolution shared by the handlers: the element's text if the
element is present (possibly NULL), NULL otherwise. -/
def statusTextOf (s : PresenceStanza) : Option String :=
  match s.statusChild with
  | some t => t
  | none => none

/-- Show text resolution shared by the handlers: the element's text if the
element is present (possibly NULL), the literal "online" otherwise. -/
def showTextOf (s : PresenceStanza) : Option String :=
  match s.showChild with
  | some t => t
  | none => some "online"

/-- Embedding of `_unavailable_handler` (presence.c lines 324-357): emit
contact-offline unless the sender's bare JID is the local bare JID.  The
handler has no internal subtype or multi-user-chat filter. -/
def unavailableHandler (myJid : Jid) (s : PresenceStanza) : List Event :=
  if myJid.barejid ≠ s.fromJid.barejid then
    [Event.contactOffline s.fromJid.barejid s.fromJid.resourcepart (statusTextOf s)]
  else []

/-- Embedding of `_available_handler` (presence.c lines 359-452): early
return on error / specific subtypes / multi-user-chat stanzas, resolve the
capability key (whose `strdup(NULL)` crash propagates), build the Resource
with defaults and emit contact-online unless the sender is the local bare
JID.  `now` stands for `g_date_time_new_now_local`. -/
def availableHandler (myJid : Jid) (s : PresenceStanza) (cache : List String)
    (now : Int) : List DiscoQuery × Except Unit (List Event) :=
  if s.typ = some StanzaType.error then ([], Except.ok [])
  else if s.typ = some StanzaType.unavailable ∨ s.typ = some StanzaType.subscribe
      ∨ s.typ = some StanzaType.subscribed ∨ s.typ = some StanzaType.unsubscribed then
    ([], Except.ok [])
  else if s.mucUser then ([], Except.ok [])
  else
    match (getCapsKey s cache).key with
    | Except.error e => ((getCapsKey s cache).queries, Except.error e)
    | Except.ok caps_key =>
      let last_activity : Option Int :=
        if 0 < s.idleSeconds then some (now - s.idleSeconds) else none
      let priority : Int :=
        match s.priorityChild with
        | some (some t) => atoi t
        | some none => 0
        | none => 0
      if myJid.barejid ≠ s.fromJid.barejid then
        ((getCapsKey s cache).queries,
         Except.ok [Event.contactOnline s.fromJid.barejid
           ⟨s.fromJid.resourcepart, resource_presence_from_string (showTextOf s),
            statusTextOf s, priority, caps_key⟩ last_activity])
      else ((getCapsKey s cache).queries, Except.ok [])

/-- Identifiers of the handlers registered by `presence_add_handlers`. -/
inductive HandlerId where
  | errorH
  | roomH
  | unavailableH
  | subscribeH
  | subscribedH
  | unsubscribedH
  | availableH
  deriving DecidableEq

/-- The multi-user-chat user extension namespace `STANZA_NS_MUC_USER`. -/
def mucUserNs : String := "http://jabber.org/protocol/muc#user"

/-- Registration table of `presence_add_handlers` (presence.c lines 68-81):
each entry is the (namespace filter, type filter, handler) triple passed to
`xmpp_handler_add`. -/
def registeredHandlers : List (Option String × Option StanzaType × HandlerId) :=
  [(none, some StanzaType.error, HandlerId.errorH),
   (some mucUserNs, none, HandlerId.roomH),
   (none, some StanzaType.unavailable, HandlerId.unavailableH),
   (none, some StanzaType.subscribe, HandlerId.subscribeH),
   (none, some StanzaType.subscribed, HandlerId.subscribedH),
   (none, some StanzaType.unsubscribed, HandlerId.unsubscribedH),
   (none, none, HandlerId.availableH)]

/-- Matching discipline of the stanza library's handler dispatch: a handler
namespace filter matches when the stanza (or one of its children) carries
that namespace, a type filter matches when the stanza's type attribute is
present and equal; an absent filter matches anything.  Every registered
handler whose filters match is invoked — the source documents this in
`_available_handler` and `_room_presence_handler` ("handler still fires if
error", "handler still fires for muc presence"), which is why those
handlers re-filter internally. -/
def handlerMatches (ns : Option String) (ty : Option StanzaType)
    (s : PresenceStanza) : Bool :=
  (match ns with
   | none => true
   | some n => decide (n = mucUserNs) && s.mucUser) &&
  (match ty with
   | none => true
   | some t => decide (s.typ = some t))

/-- All handlers fired for a given stanza, in registration order. -/
def firedHandlers (s : PresenceStanza) : List HandlerId :=
  (registeredHandlers.filter fun h => handlerMatches h.1 h.2.1 s).map
    fun h => h.2.2

/-- Events contributed by the Direct Presence Processor's offline path when
the dispatcher processes a stanza: `_unavailable_handler` runs whenever its
registration (no namespace filter, type `unavailable`) matches. -/
def dispatchDirectOffline (myJid : Jid) (s : PresenceStanza) : List Event :=
  if HandlerId.unavailableH ∈ firedHandlers s then unavailableHandler myJid s
  else []

/-- One occupant's presence record in a room roster (spec section 3). -/
structure Occupant where
  showText : Option String
  status : Option String
  capsKey : Option String
  deriving DecidableEq

/-- A pending member nick change (spec section 3): `{ old_nick, new_nick? }`,
the new nick being the stanza's extraction, which may be absent. -/
structure PendingNick where
  newNick : Option String
  oldNick : String
  deriving DecidableEq

/-- Per-room state held by the room membership registry (spec section 3):
roster-received flag, occupant table keyed by nickname, pending member nick
change, pending self nick change flag, and the self occupant's current
nickname. -/
structure RoomState where
  myNick : String
  roster_received : Bool
  occupants : List (String × Occupant)
  pending_nick_change : Option PendingNick
  self_pending_nick_change : Bool
  deriving DecidableEq

/-- Modelled from the spec: `muc_set_room_pending_nick_change` (muc.c is not
among the sources) sets the self pending nick change flag. -/
def muc_set_room_pending_nick_change (r : RoomState) : RoomState :=
  { r with self_pending_nick_change := true }

/-- Modelled from the spec: `muc_is_room_pending_nick_change` reads the self
pending nick change flag. -/
def muc_is_room_pending_nick_change (r : RoomState) : Bool :=
  r.self_pending_nick_change

/-- Modelled from the spec: `muc_complete_room_nick_change` applies the
rename to the self-occupant record and clears the flag (spec section 4.4). -/
def muc_complete_room_nick_change (r : RoomState) (nick : String) : RoomState :=
  { r with myNick := nick, self_pending_nick_change := false }

/-- Modelled from the spec: `muc_get_roster_received` reads the
roster-received flag. -/
def muc_get_roster_received (r : RoomState) : Bool :=
  r.roster_received

/-- Modelled from the spec: `muc_add_to_roster` inserts or replaces the
occupant entry for a nickname (spec sections 3 and 4.4; nicknames are unique
within a room). -/
def muc_add_to_roster (r : RoomState) (nick : String)
    (showText status capsKey : Option String) : RoomState :=
  { r with occupants :=
      (nick, (⟨showText, status, capsKey⟩ : Occupant)) ::
        (r.occupants.filter fun p => p.1 ≠ nick) }

/-- Modelled from the spec: `muc_nick_in_roster` tests occupant-table
membership. -/
def muc_nick_in_roster (r : RoomState) (nick : String) : Bool :=
  r.occupants.any fun p => p.1 == nick

/-- Modelled from the spec: `muc_set_roster_pending_nick_change` records the
pending member nick change `{ old_nick, new_nick? }` (spec section 3). -/
def muc_set_roster_pending_nick_change (r : RoomState)
    (newNick : Option String) (oldNick : String) : RoomState :=
  { r with pending_nick_change := some ⟨newNick, oldNick⟩ }

/-- Modelled from the spec: `muc_complete_roster_nick_change` looks up a
pending nick change whose new nick is the given nickname; on a hit it
removes the old nick's occupant entry, clears the pending record and returns
the old nick, otherwise it returns none (spec section 4.4, lookup misses are
no-ops). -/
def muc_complete_roster_nick_change (r : RoomState) (nick : String) :
    RoomState × Option String :=
  match r.pending_nick_change with
  | some p =>
    if p.newNick = some nick then
      ({ r with occupants := (r.occupants.filter fun q => q.1 ≠ p.oldNick),
                pending_nick_change := none }, some p.oldNick)
    else (r, none)
  | none => (r, none)

/-- Modelled from the spec: `prof_handle_room_roster_complete` marks the
roster received for the room (spec section 4.4: "set roster_received = true,
emit room roster complete"; the flag write lives in the notification layer,
which is not among the sources). -/
def prof_handle_room_roster_complete (r : RoomState) : RoomState :=
  { r with roster_received := true }

/-- Result of one room presence step: the discovery queries sent and either
the next room state with the emitted events, or the propagated
`_get_caps_key` crash. -/
structure RoomStep where
  queries : List DiscoQuery
  outcome : Except Unit (RoomState × List Event)

/-- Embedding of `_room_presence_handler` (presence.c lines 546-642) acting
on the one room the stanza addresses.  `room` in the events is the sender's
bare JID, `nick` the sender's resource part, exactly as in the source.  In
the member-online and member-presence branches the occupant table update is
modelled from the spec (section 4.4: "insert it and emit", "update the
occupant entry in place and emit"); the update itself is performed by the
notification layer, which is not among the sources.  In the member-offline
branch the occupant entry is left untouched, as the spec directs ("do not
assume removal here"). -/
def roomPresenceHandler (r : RoomState) (s : PresenceStanza)
    (cache : List String) : RoomStep :=
  if s.typ = some StanzaType.error then ⟨[], Except.ok (r, [])⟩
  else
    let room := s.fromJid.barejid
    let nick := s.fromJid.resourcepart
    if s.selfPresence then
      if s.typ = some StanzaType.unavailable then
        if s.nickChange then
          ⟨[], Except.ok (muc_set_room_pending_nick_change r, [])⟩
        else
          ⟨[], Except.ok (r, [Event.leaveRoom room])⟩
      else if muc_is_room_pending_nick_change r then
        ⟨[], Except.ok (muc_complete_room_nick_change r nick,
          [Event.roomNickChange room nick])⟩
      else if ¬ muc_get_roster_received r then
        ⟨[], Except.ok (prof_handle_room_roster_complete r,
          [Event.roomRosterComplete room])⟩
      else ⟨[], Except.ok (r, [])⟩
    else
      match (getCapsKey s cache).key with
      | Except.error e => ⟨(getCapsKey s cache).queries, Except.error e⟩
      | Except.ok caps_key =>
        let queries := (getCapsKey s cache).queries
        if s.typ = some StanzaType.unavailable then
          if s.nickChange then
            ⟨queries, Except.ok
              (muc_set_roster_pending_nick_change r s.newNick nick, [])⟩
          else
            ⟨queries, Except.ok (r,
              [Event.roomMemberOffline room nick "offline" (statusTextOf s)])⟩
        else
          if ¬ muc_get_roster_received r then
            ⟨queries, Except.ok
              (muc_add_to_roster r nick (showTextOf s) (statusTextOf s) caps_key, [])⟩
          else
            match muc_complete_roster_nick_change r nick with
            | (r2, some old_nick) =>
              ⟨queries, Except.ok
                (muc_add_to_roster r2 nick (showTextOf s) (statusTextOf s) caps_key,
                 [Event.roomMemberNickChange room old_nick nick])⟩
            | (r2, none) =>
              if ¬ muc_nick_in_roster r2 nick then
                ⟨queries, Except.ok
                  (muc_add_to_roster r2 nick (showTextOf s) (statusTextOf s) caps_key,
                   [Event.roomMemberOnline room nick (showTextOf s) (statusTextOf s) caps_key])⟩
              else
                ⟨queries, Except.ok
                  (muc_add_to_roster r2 nick (showTextOf s) (statusTextOf s) caps_key,
                   [Event.roomMemberPresence room nick (showTextOf s) (statusTextOf s) caps_key])⟩

/-- Process a sequence of room presence stanzas for one room in arrival
order, stopping at a crash, accumulating the emitted events. -/
def processRoomSeq (cache : List String) (r : RoomState) :
    List PresenceStanza → Except Unit (RoomState × List Event)
  | [] => Except.ok (r, [])
  | s :: rest =>
    match (roomPresenceHandler r s cache).outcome with
    | Except.error e => Except.error e
    | Except.ok (r2, evs) =>
      match processRoomSeq cache r2 rest with
      | Except.error e => Except.error e
      | Except.ok (r3, evs2) => Except.ok (r3, evs ++ evs2)

/-- Count of room-roster-complete events in an event list. -/
def countRosterComplete (evs : List Event) : Nat :=
  (evs.filter fun e =>
    match e with
    | Event.roomRosterComplete _ => true
    | _ => false).length

/-- State of a freshly joined room (spec section 3: `roster_received` is
false until the initial burst completes; no occupants, nothing pending). -/
def joinState (nick : String) : RoomState :=
  ⟨nick, false, [], none, false⟩

/-- Trace predicate, read off the claim's own wording: along the processing
of the stanza list some self-presence (an available stanza marked as self)
is processed while `roster_received` is still false. -/
def selfAvailWhileAwaiting (cache : List String) :
    RoomState → List PresenceStanza → Bool
  | _, [] => false
  | r, s :: rest =>
    (s.selfPresence && decide (s.typ = none) && !r.roster_received) ||
    (match (roomPresenceHandler r s cache).outcome with
     | Except.ok (r2, _) => selfAvailWhileAwaiting cache r2 rest
     | Except.error _ => false)

/-- Amended trace predicate: some self available stanza is processed while
`roster_received` is still false and no self nick change is pending at that
point. -/
def selfAvailReady (cache : List String) :
    RoomState → List PresenceStanza → Bool
  | _, [] => false
  | r, s :: rest =>
    (s.selfPresence && decide (s.typ = none) && !r.roster_received &&
      !r.self_pending_nick_change) ||
    (match (roomPresenceHandler r s cache).outcome with
     | Except.ok (r2, _) => selfAvailReady cache r2 rest
     | Except.error _ => false)

/-- A multi-user-chat unavailable presence from occupant "alice" of room
"room@conf": no error, carries the muc-user namespace. -/
def cexMucUnavailStanza : PresenceStanza :=
  ⟨some StanzaType.unavailable, ⟨"room@conf", "alice"⟩, none, none, none, 0,
   none, true, false, false, none⟩

/-- A local account JID distinct from the room's bare JID. -/
def cexLocalJid : Jid := ⟨"me@srv", "laptop"⟩

/-- A presence from another resource of the local account "me@srv". -/
def wSelfStanza : PresenceStanza :=
  ⟨none, ⟨"me@srv", "phone"⟩, none, none, none, 0, none, false, false, false,
   none⟩

/-- The local account JID for the self-presence witness. -/
def wSelfLocalJid : Jid := ⟨"me@srv", "laptop"⟩

/-- A presence advertising capabilities with the supported hash and
verification string "v1". -/
def wShaStanza : PresenceStanza :=
  ⟨none, ⟨"a@b", "c"⟩, none, none, none, 0,
   some ⟨some "sha-1", some "v1"⟩, false, false, false, none⟩

/-- A presence advertising legacy capabilities (no hash) with node
"nodeX". -/
def wLegacyStanza : PresenceStanza :=
  ⟨none, ⟨"a@b", "c"⟩, none, none, none, 0,
   some ⟨none, some "nodeX"⟩, false, false, false, none⟩

/-- A presence advertising the supported hash with verification string
"K". -/
def wIdemStanza : PresenceStanza :=
  ⟨none, ⟨"x@y", "z"⟩, none, none, none, 0,
   some ⟨some "sha-1", some "K"⟩, false, false, false, none⟩

/-- A presence advertising the supported hash algorithm with no verification
string. -/
def cexShaNoVerStanza : PresenceStanza :=
  ⟨none, ⟨"a@b", "c"⟩, none, none, none, 0,
   some ⟨some "sha-1", none⟩, false, false, false, none⟩

/-- The priority element is missing, has no text, or its text contains no
digit (so C `atoi` performs no conversion). -/
def priorityDefaulted (s : PresenceStanza) : Prop :=
  s.priorityChild = none ∨ s.priorityChild = some none
  ∨ ∃ t, s.priorityChild = some (some t) ∧ ∀ ch ∈ t.toList, ch.isDigit = false

/-- Local account JID for the direct-presence defaults witness. -/
def wAvailLocalJid : Jid := ⟨"me@s", "r"⟩

/-- Scenario D of the spec: direct presence from "carol@example.com/phone"
with no show, status or priority child. -/
def wAvailStanza : PresenceStanza :=
  ⟨none, ⟨"carol@example.com", "phone"⟩, none, none, none, 0, none, false,
   false, false, none⟩

/-- A room whose roster is received and whose occupant table holds member
"alice". -/
def wNickRoom : RoomState :=
  ⟨"me", true, [("alice", ⟨some "online", none, none⟩)], none, false⟩

/-- Member "alice" leaving only to rejoin as "alice2": unavailable with the
nick-change marker. -/
def wNickStanza1 : PresenceStanza :=
  ⟨some StanzaType.unavailable, ⟨"room@c", "alice"⟩, none, none, none, 0,
   none, true, false, true, some "alice2"⟩

/-- Member "alice2" arriving (the second half of the nick change), with
capability key "K". -/
def wNickStanza2 : PresenceStanza :=
  ⟨none, ⟨"room@c", "alice2"⟩, none, none, none, 0,
   some ⟨some "sha-1", some "K"⟩, true, false, false, none⟩

/-- A room with a pending self nick change and the roster not yet
received. -/
def wSelfNickRoom : RoomState := ⟨"me", false, [], none, true⟩

/-- Self available presence under the new nickname "neo". -/
def wSelfNickStanza : PresenceStanza :=
  ⟨none, ⟨"room@c", "neo"⟩, none, none, none, 0, none, true, true, false,
   none⟩

/-- Self unavailable presence with the nick-change marker (start of a self
rename to "me2"). -/
def cexSelfNickUnavail : PresenceStanza :=
  ⟨some StanzaType.unavailable, ⟨"room@c", "me"⟩, none, none, none, 0, none,
   true, true, true, some "me2"⟩

/-- Self available presence under the new nickname "me2" (end of the self
rename). -/
def cexSelfAvailAfter : PresenceStanza :=
  ⟨none, ⟨"room@c", "me2"⟩, none, none, none, 0, none, true, true, false,
   none⟩

/-- Plain self available presence right after joining "room@c". -/
def wJoinSelfAvail : PresenceStanza :=
  ⟨none, ⟨"room@c", "me"⟩, none, none, none, 0, none, true, true, false,
   none⟩

end ProfPresence

namespace ProfPresence

lemma mem_of_mem_dropWhile {α : Type} {p : α → Bool} {a : α} :
    ∀ {l : List α}, a ∈ l.dropWhile p → a ∈ l
  | [], h => by simpa using h
  | b :: t, h => by
    by_cases hp : p b = true
    · simp only [List.dropWhile_cons_of_pos hp] at h
      exact List.mem_cons_of_mem b (mem_of_mem_dropWhile h)
    · simpa [List.dropWhile_cons_of_neg (by simpa using hp)] using h

lemma atoiLoop_of_head_not_digit : ∀ {l : List Char},
    (∀ c ∈ l, c.isDigit = false) → atoiLoop l 0 = 0
  | [], _ => rfl
  | c :: cs, h => by
    simp [atoiLoop, h c (List.mem_cons_self c cs)]

lemma atoi_of_no_digits (t : String) (h : ∀ c ∈ t.toList, c.isDigit = false) :
    atoi t = 0 := by
  unfold atoi
  have hsub : ∀ c ∈ t.toList.dropWhile
      (fun c => decide (c = ' ' ∨ c = '\t' ∨ c = '\n' ∨ c = '\x0b'
        ∨ c = '\x0c' ∨ c = '\r')), c.isDigit = false :=
    fun c hc => h c (mem_of_mem_dropWhile hc)
  rcases hcs : t.toList.dropWhile
      (fun c => decide (c = ' ' ∨ c = '\t' ∨ c = '\n' ∨ c = '\x0b'
        ∨ c = '\x0c' ∨ c = '\r')) with _ | ⟨c, rest⟩
  · simp
  · rw [hcs] at hsub
    have hrest : ∀ x ∈ rest, x.isDigit = false :=
      fun x hx => hsub x (List.mem_cons_of_mem c hx)
    have hhead : ∀ x ∈ c :: rest, x.isDigit = false := hsub
    by_cases h1 : c = '-'
    · simp [h1, atoiLoop_of_head_not_digit hrest]
    · by_cases h2 : c = '+'
      · simp [h1, h2, atoiLoop_of_head_not_digit hrest]
      · simp [h1, h2, atoiLoop_of_head_not_digit hhead]

lemma getCapsKey_cache_eq (s : PresenceStanza) (c : List String) :
    (getCapsKey s c).cache = c := by
  unfold getCapsKey
  rcases s.caps with _ | ⟨_ | h, _ | n⟩ <;> (repeat' split) <;> simp

lemma getCapsKey_queries_length (s : PresenceStanza) (c : List String) :
    (getCapsKey s c).queries.length ≤ 1 := by
  unfold getCapsKey
  rcases s.caps with _ | ⟨_ | h, _ | n⟩ <;> (repeat' split) <;> simp

lemma getCapsKey_cached_no_query (s : PresenceStanza) (c : List String)
    (k : String) (hk : (getCapsKey s c).key = Except.ok (some k))
    (hc : caps_contains c k = true) : (getCapsKey s c).queries = [] := by
  rcases hcaps : s.caps with _ | ⟨hash, cs⟩
  · simp [getCapsKey, hcaps] at hk
  · rcases hash with _ | hv
    · rcases cs with _ | n
      · simp [getCapsKey, hcaps]
      · simp only [getCapsKey, hcaps, Except.ok.injEq, Option.some.injEq] at hk
        subst hk
        simp [getCapsKey, hcaps, hc]
    · by_cases hsh : hv = "sha-1"
      · rcases cs with _ | n
        · simp [getCapsKey, hcaps, hsh] at hk
        · simp [getCapsKey, hcaps, hsh] at hk
          subst hk
          simp [getCapsKey, hcaps, hsh, hc]
      · rcases cs with _ | n
        · simp [getCapsKey, hcaps, hsh]
        · simp [getCapsKey, hcaps, hsh] at hk
          subst hk
          simp [getCapsKey, hcaps, hsh, hc]

/-- C1: the claim states that a multi-user-chat unavailable presence (not an
error) is routed exclusively to the Room Presence State Machine, with no
contact-offline event from the Direct Presence Processor's offline path.  On
the code this fails: `_unavailable_handler` is registered with no namespace
filter and, unlike `_available_handler`, has no internal multi-user-chat
filter, so it also fires for such a stanza and emits a contact-offline event
for the room's bare JID. -/
theorem muc_unavailable_triggers_contact_offline :
    HandlerId.roomH ∈ firedHandlers cexMucUnavailStanza
    ∧ HandlerId.unavailableH ∈ firedHandlers cexMucUnavailStanza
    ∧ dispatchDirectOffline cexLocalJid cexMucUnavailStanza =
        [Event.contactOffline "room@conf" "alice" none] := by
  decide

/-- C10: the claim states that on a supported-hash advertisement with no
verification string `_get_caps_key` terminates normally with a defined
result and that the branch copying a null key is unreachable.  On the code
this fails: with hash "sha-1" and a NULL caps string the function issues no
query but falls through to `return strdup(caps_key)` with `caps_key ==
NULL`, which is undefined behaviour — the error outcome of the
embedding. -/
theorem caps_key_sha1_missing_ver_crashes :
    (getCapsKey cexShaNoVerStanza []).key = Except.error ()
    ∧ (getCapsKey cexShaNoVerStanza []).queries = [] :=
  ⟨rfl, rfl⟩

/-- C3: a non-room presence stanza whose sender bare JID equals the local
account's bare JID produces no contact event: the available handler, when it
completes, emits no events (and can otherwise only stop at the capability
resolver's crash, emitting none either), and the unavailable handler emits
none. -/
theorem self_presence_guard (myJid : Jid) (s : PresenceStanza)
    (cache : List String) (now : Int)
    (hbare : s.fromJid.barejid = myJid.barejid) (hmuc : s.mucUser = false) :
    ((availableHandler myJid s cache now).2 = Except.ok []
      ∨ (availableHandler myJid s cache now).2 = Except.error ())
    ∧ unavailableHandler myJid s = [] := by
  constructor
  · unfold availableHandler
    split
    · exact Or.inl rfl
    split
    · exact Or.inl rfl
    split
    · exact Or.inl rfl
    rcases hk : (getCapsKey s cache).key with e | ck
    · cases e
      simp [hk]
    · simp [hk, hbare]
  · simp [unavailableHandler, hbare]

/-- Witness for C3 at a concrete self-presence stanza. -/
theorem self_presence_guard_witness :
    ((availableHandler wSelfLocalJid wSelfStanza [] 0).2 = Except.ok []
      ∨ (availableHandler wSelfLocalJid wSelfStanza [] 0).2 = Except.error ())
    ∧ unavailableHandler wSelfLocalJid wSelfStanza = [] :=
  self_presence_guard wSelfLocalJid wSelfStanza [] 0 rfl rfl

/-- C4: on a capability advertisement with the supported hash algorithm the
resolver's key is the advertised verification string, and a discovery query
with identifier "disco", addressed to the sender and targeting the
advertised node, is issued exactly when the verification string is present
and not already cached; with no verification string no query is issued. -/
theorem caps_key_supported_hash (s : PresenceStanza) (cache : List String)
    (cs : Option String) (h : s.caps = some ⟨some "sha-1", cs⟩) :
    (∀ v, cs = some v →
      (getCapsKey s cache).key = Except.ok (some v)
      ∧ (getCapsKey s cache).queries =
          (if caps_contains cache v then []
            else [⟨"disco", s.fromFull, v⟩]))
    ∧ (cs = none → (getCapsKey s cache).queries = []) := by
  constructor
  · rintro v rfl
    simp [getCapsKey, h]
  · rintro rfl
    simp [getCapsKey, h]

/-- Witness for C4 at a concrete sha-1 advertisement with an empty cache. -/
theorem caps_key_supported_hash_witness :
    (getCapsKey wShaStanza []).key = Except.ok (some "v1")
    ∧ (getCapsKey wShaStanza []).queries = [⟨"disco", "a@b/c", "v1"⟩] := by
  have h := (caps_key_supported_hash wShaStanza [] (some "v1") rfl).1 "v1" rfl
  exact ⟨h.1, by rw [h.2]; rfl⟩

/-- C5: on a capability advertisement whose hash algorithm is unsupported or
absent the resolver's key is the sender's full JID, and a discovery query
whose identifier is the fixed prefix concatenated with the sender's JID,
addressed to the sender and targeting the node, is issued exactly when a
node is present and the key is not cached; with no node no query is
issued. -/
theorem caps_key_legacy (s : PresenceStanza) (cache : List String)
    (c : CapsAd) (h : s.caps = some c) (hh : c.hash ≠ some "sha-1") :
    (getCapsKey s cache).key = Except.ok (some s.fromFull)
    ∧ (getCapsKey s cache).queries =
        c.capsStr.elim []
          (fun n => if caps_contains cache s.fromFull then []
            else [⟨"disco_" ++ s.fromFull, s.fromFull, n⟩]) := by
  obtain ⟨ch, ccs⟩ := c
  rcases ch with _ | hv
  · rcases ccs with _ | n <;> simp [getCapsKey, h]
  · have hne : hv ≠ "sha-1" := by
      intro he
      exact hh (by simp [he])
    rcases ccs with _ | n <;> simp [getCapsKey, h, hne]

/-- Witness for C5 at a concrete legacy advertisement with an empty
cache. -/
theorem caps_key_legacy_witness :
    (getCapsKey wLegacyStanza []).key = Except.ok (some "a@b/c")
    ∧ (getCapsKey wLegacyStanza []).queries =
        [⟨"disco_" ++ "a@b/c", "a@b/c", "nodeX"⟩] := by
  have h := caps_key_legacy wLegacyStanza [] ⟨none, some "nodeX"⟩ rfl
    (by simp)
  exact ⟨h.1, by rw [h.2]; rfl⟩

/-- C6: the resolver is idempotent with respect to the cache: whenever two
stanzas resolve to the same key and the cache already reports that key when
the second one is processed, the second invocation issues no query, at most
one query is issued for the pair, and the resolver leaves the cache
untouched for both invocations. -/
theorem caps_discovery_idempotent (s₁ s₂ : PresenceStanza)
    (c₁ c₂ : List String) (k : String)
    (h₁ : (getCapsKey s₁ c₁).key = Except.ok (some k))
    (h₂ : (getCapsKey s₂ c₂).key = Except.ok (some k))
    (hc : caps_contains c₂ k = true) :
    (getCapsKey s₂ c₂).queries = []
    ∧ (getCapsKey s₁ c₁).queries.length
        + (getCapsKey s₂ c₂).queries.length ≤ 1
    ∧ (getCapsKey s₁ c₁).cache = c₁ ∧ (getCapsKey s₂ c₂).cache = c₂ := by
  have hq := getCapsKey_cached_no_query s₂ c₂ k h₂ hc
  refine ⟨hq, ?_, getCapsKey_cache_eq s₁ c₁, getCapsKey_cache_eq s₂ c₂⟩
  rw [hq]
  simpa using getCapsKey_queries_length s₁ c₁

/-- Witness for C6: the same advertisement processed against an empty cache
and then against a cache already holding its key. -/
theorem caps_discovery_idempotent_witness :
    (getCapsKey wIdemStanza ["K"]).queries = []
    ∧ (getCapsKey wIdemStanza []).queries.length
        + (getCapsKey wIdemStanza ["K"]).queries.length ≤ 1
    ∧ (getCapsKey wIdemStanza []).cache = []
    ∧ (getCapsKey wIdemStanza ["K"]).cache = ["K"] :=
  caps_discovery_idempotent wIdemStanza wIdemStanza [] ["K"] "K" rfl rfl rfl

/-- C7: an available direct-presence stanza with malformed or missing child
elements is recovered with defaults: a missing or digitless priority element
yields priority 0, a missing show element yields the online kind, a missing
status element yields a null status; the emitted contact-online Resource
carries those defaults (the capability resolver is assumed not to hit its
own crash, which claim C10 covers separately). -/
theorem available_handler_defaults (myJid : Jid) (s : PresenceStanza)
    (cache : List String) (now : Int) (ck : Option String)
    (htyp : s.typ = none) (hmuc : s.mucUser = false)
    (hbare : myJid.barejid ≠ s.fromJid.barejid)
    (hck : (getCapsKey s cache).key = Except.ok ck) :
    ∃ res la,
      (availableHandler myJid s cache now).2
        = Except.ok [Event.contactOnline s.fromJid.barejid res la]
      ∧ res.name = s.fromJid.resourcepart
      ∧ res.capsKey = ck
      ∧ (priorityDefaulted s → res.priority = 0)
      ∧ (s.showChild = none → res.presence = ResourcePresence.online)
      ∧ (s.statusChild = none → res.status = none) := by
  refine ⟨⟨s.fromJid.resourcepart, resource_presence_from_string (showTextOf s),
    statusTextOf s,
    (match s.priorityChild with
     | some (some t) => atoi t
     | some none => 0
     | none => 0), ck⟩,
    (if 0 < s.idleSeconds then some (now - s.idleSeconds) else none),
    ?_, rfl, rfl, ?_, ?_, ?_⟩
  · simp [availableHandler, htyp, hmuc, hck, hbare]
  · intro hp
    rcases hp with h | h | ⟨t, ht, hd⟩
    · simp [h]
    · simp [h]
    · simp only [ht]
      exact atoi_of_no_digits t hd
  · intro hs
    simp [showTextOf, hs, resource_presence_from_string]
  · intro hs
    simp [statusTextOf, hs]

/-- Witness for C7 at Scenario D: direct presence from
"carol@example.com/phone" with show, status and priority absent. -/
theorem available_handler_defaults_witness :
    ∃ res la,
      (availableHandler wAvailLocalJid wAvailStanza [] 0).2
        = Except.ok [Event.contactOnline "carol@example.com" res la]
      ∧ res.name = "phone"
      ∧ res.capsKey = none
      ∧ (priorityDefaulted wAvailStanza → res.priority = 0)
      ∧ (wAvailStanza.showChild = none → res.presence = ResourcePresence.online)
      ∧ (wAvailStanza.statusChild = none → res.status = none) :=
  available_handler_defaults wAvailLocalJid wAvailStanza [] 0 none rfl rfl
    (by decide) rfl

/-- C8: a self available presence arriving while the self nick change flag
is pending applies the rename, clears the flag, emits room-nickname-changed
with the room JID and the new nick, and takes precedence over the
roster-complete check: no room-roster-complete event is emitted for the
stanza even when the roster is not yet received. -/
theorem self_nick_change_precedence (r : RoomState) (s : PresenceStanza)
    (cache : List String)
    (hself : s.selfPresence = true) (htyp : s.typ = none)
    (hpend : r.self_pending_nick_change = true) :
    roomPresenceHandler r s cache =
      ⟨[], Except.ok (muc_complete_room_nick_change r s.fromJid.resourcepart,
        [Event.roomNickChange s.fromJid.barejid s.fromJid.resourcepart])⟩
    ∧ (muc_complete_room_nick_change r s.fromJid.resourcepart).myNick
        = s.fromJid.resourcepart
    ∧ (muc_complete_room_nick_change r s.fromJid.resourcepart).self_pending_nick_change
        = false
    ∧ countRosterComplete
        [Event.roomNickChange s.fromJid.barejid s.fromJid.resourcepart] = 0 := by
  refine ⟨?_, rfl, rfl, rfl⟩
  simp [roomPresenceHandler, hself, htyp, hpend, muc_is_room_pending_nick_change]

/-- Witness for C8: the rename to "neo" in a room with a pending self nick
change and the roster not yet received. -/
theorem self_nick_change_precedence_witness :
    roomPresenceHandler wSelfNickRoom wSelfNickStanza [] =
      ⟨[], Except.ok (muc_complete_room_nick_change wSelfNickRoom "neo",
        [Event.roomNickChange "room@c" "neo"])⟩
    ∧ (muc_complete_room_nick_change wSelfNickRoom "neo").myNick = "neo"
    ∧ (muc_complete_room_nick_change wSelfNickRoom "neo").self_pending_nick_change
        = false
    ∧ countRosterComplete [Event.roomNickChange "room@c" "neo"] = 0 :=
  self_nick_change_precedence wSelfNickRoom wSelfNickStanza [] rfl rfl rfl

lemma any_filter_ne_eq_false (l : List (String × Occupant)) (nm : String)
    (p : String × Occupant → Bool) :
    (((l.filter fun q => q.1 ≠ nm).filter p).any fun q => q.1 == nm)
      = false := by
  rw [List.any_eq_false]
  intro x hx
  have hx1 : x ∈ l.filter fun q => q.1 ≠ nm := (List.mem_filter.mp hx).1
  have hne : x.1 ≠ nm := by simpa using (List.mem_filter.mp hx1).2
  simpa using hne

/-- C2: with the roster received and member "alice" in the occupant table,
processing (unavailable with nick-change marker, new nick "alice2") followed
by (available from "alice2") yields exactly one room-member-nickname-changed
event, zero member-offline and member-online events, and afterwards the
occupant table holds "alice2" and no longer holds "alice". -/
theorem member_nick_change_round_trip (r : RoomState) (cache : List String)
    (s₁ s₂ : PresenceStanza) (ck₁ K : Option String)
    (hrec : r.roster_received = true)
    (hmem : muc_nick_in_roster r "alice" = true)
    (h1self : s₁.selfPresence = false)
    (h1typ : s₁.typ = some StanzaType.unavailable)
    (h1nc : s₁.nickChange = true) (h1new : s₁.newNick = some "alice2")
    (h1nick : s₁.fromJid.resourcepart = "alice")
    (h1caps : (getCapsKey s₁ cache).key = Except.ok ck₁)
    (h2self : s₂.selfPresence = false) (h2typ : s₂.typ = none)
    (h2nick : s₂.fromJid.resourcepart = "alice2")
    (h2caps : (getCapsKey s₂ cache).key = Except.ok K) :
    ∃ r2,
      processRoomSeq cache r [s₁, s₂]
        = Except.ok (r2,
            [Event.roomMemberNickChange s₂.fromJid.barejid "alice" "alice2"])
      ∧ muc_nick_in_roster r2 "alice2" = true
      ∧ muc_nick_in_roster r2 "alice" = false := by
  refine ⟨muc_add_to_roster
    { r with occupants := (r.occupants.filter fun q => q.1 ≠ "alice"),
             pending_nick_change := none }
    "alice2" (showTextOf s₂) (statusTextOf s₂) K, ?_, ?_, ?_⟩
  · simp [processRoomSeq, roomPresenceHandler, h1self, h1typ, h1nc, h1new,
      h1nick, h1caps, h2self, h2typ, h2nick, h2caps, hrec,
      muc_set_roster_pending_nick_change, muc_get_roster_received,
      muc_complete_roster_nick_change]
  · simp [muc_nick_in_roster, muc_add_to_roster]
  · simp only [muc_nick_in_roster, muc_add_to_roster, List.any_cons]
    rw [any_filter_ne_eq_false]
    decide

/-- Witness for C2: the round trip in a concrete room holding "alice", with
capability key "K" already cached. -/
theorem member_nick_change_round_trip_witness :
    ∃ r2,
      processRoomSeq ["K"] wNickRoom [wNickStanza1, wNickStanza2]
        = Except.ok (r2,
            [Event.roomMemberNickChange "room@c" "alice" "alice2"])
      ∧ muc_nick_in_roster r2 "alice2" = true
      ∧ muc_nick_in_roster r2 "alice" = false :=
  member_nick_change_round_trip wNickRoom ["K"] wNickStanza1 wNickStanza2
    none (some "K") rfl (by decide) rfl rfl rfl rfl rfl rfl rfl rfl rfl rfl

lemma complete_roster_pair (r : RoomState) (nick : String) (r2 : RoomState)
    (old : Option String)
    (h : muc_complete_roster_nick_change r nick = (r2, old)) :
    r2.roster_received = r.roster_received := by
  unfold muc_complete_roster_nick_change at h
  repeat' split at h
  all_goals
    simp only [Prod.mk.injEq] at h
  all_goals
    rw [← h.1]

lemma countRosterComplete_append (a b : List Event) :
    countRosterComplete (a ++ b)
      = countRosterComplete a + countRosterComplete b := by
  simp [countRosterComplete, List.filter_append]

lemma roomStep_roster (r : RoomState) (s : PresenceStanza)
    (cache : List String) (r2 : RoomState) (evs : List Event)
    (h : (roomPresenceHandler r s cache).outcome = Except.ok (r2, evs)) :
    countRosterComplete evs
      = (if r2.roster_received = true ∧ r.roster_received = false then 1 else 0)
    ∧ (r.roster_received = true → r2.roster_received = true) := by
  rcases hcc : muc_complete_roster_nick_change r s.fromJid.resourcepart
    with ⟨r3, old⟩
  have hrr := complete_roster_pair r s.fromJid.resourcepart r3 old hcc
  simp only [roomPresenceHandler] at h
  rw [hcc] at h
  repeat' split at h
  all_goals try simp only [Except.ok.injEq, Prod.mk.injEq] at h
  all_goals try (obtain ⟨hA, hB⟩ := h)
  all_goals try subst hA
  all_goals try subst hB
  all_goals cases hb : r.roster_received <;>
    simp_all [countRosterComplete, prof_handle_room_roster_complete,
      muc_set_room_pending_nick_change, muc_complete_room_nick_change,
      muc_add_to_roster, muc_set_roster_pending_nick_change,
      muc_get_roster_received, muc_is_room_pending_nick_change]

lemma roomStep_fires_complete (r : RoomState) (s : PresenceStanza)
    (cache : List String)
    (hself : s.selfPresence = true) (htyp : s.typ = none)
    (hpend : r.self_pending_nick_change = false)
    (hrec : r.roster_received = false) :
    roomPresenceHandler r s cache =
      ⟨[], Except.ok (prof_handle_room_roster_complete r,
        [Event.roomRosterComplete s.fromJid.barejid])⟩ := by
  simp [roomPresenceHandler, hself, htyp, hpend, hrec,
    muc_is_room_pending_nick_change, muc_get_roster_received]

lemma seq_roster (cache : List String) :
    ∀ (stzs : List PresenceStanza) (r r2 : RoomState) (evs : List Event),
    processRoomSeq cache r stzs = Except.ok (r2, evs) →
    countRosterComplete evs ≤ 1
    ∧ (r.roster_received = true →
        r2.roster_received = true ∧ countRosterComplete evs = 0)
  | [], r, r2, evs, h => by
    simp only [processRoomSeq, Except.ok.injEq, Prod.mk.injEq] at h
    obtain ⟨h1, h2⟩ := h
    subst h1
    subst h2
    exact ⟨by simp [countRosterComplete], fun hr => ⟨hr, by simp [countRosterComplete]⟩⟩
  | s :: rest, r, r2, evs, h => by
    simp only [processRoomSeq] at h
    rcases hstep : (roomPresenceHandler r s cache).outcome with e | ⟨rm, evs1⟩
    · rw [hstep] at h
      simp at h
    · rw [hstep] at h
      dsimp only at h
      rcases hrest : processRoomSeq cache rm rest with e | ⟨rf, evs2⟩
      · rw [hrest] at h
        simp at h
      · rw [hrest] at h
        simp only [Except.ok.injEq, Prod.mk.injEq] at h
        obtain ⟨h1, h2⟩ := h
        subst h1
        subst h2
        obtain ⟨hcnt, hmono⟩ := roomStep_roster r s cache rm evs1 hstep
        obtain ⟨hle, hrecv⟩ := seq_roster cache rest rm rf evs2 hrest
        rw [countRosterComplete_append]
        constructor
        · by_cases hr : r.roster_received = true
          · have hm := hmono hr
            simp [hcnt, hr, (hrecv hm).2]
          · by_cases hm : rm.roster_received = true
            · have := (hrecv hm).2
              simp only [this, hcnt]
              split <;> simp
            · simp only [hcnt]
              have : ¬(rm.roster_received = true ∧ r.roster_received = false) := by
                intro hx
                exact hm hx.1
              rw [if_neg this]
              simpa using hle
        · intro hr
          have hm := hmono hr
          obtain ⟨hf, hz⟩ := hrecv hm
          refine ⟨hf, ?_⟩
          simp [hcnt, hr, hz]

lemma ready_false_of_received (cache : List String) :
    ∀ (stzs : List PresenceStanza) (r : RoomState),
    r.roster_received = true → selfAvailReady cache r stzs = false
  | [], _, _ => rfl
  | s :: rest, r, hr => by
    simp only [selfAvailReady, hr]
    rcases hstep : (roomPresenceHandler r s cache).outcome with e | ⟨rm, evs1⟩
    · simp
    · have hm := (roomStep_roster r s cache rm evs1 hstep).2 hr
      simp [ready_false_of_received cache rest rm hm]

lemma seq_ready (cache : List String) :
    ∀ (stzs : List PresenceStanza) (r r2 : RoomState) (evs : List Event),
    processRoomSeq cache r stzs = Except.ok (r2, evs) →
    selfAvailReady cache r stzs = true →
    countRosterComplete evs = 1
  | [], _, _, _, _, hready => by simp [selfAvailReady] at hready
  | s :: rest, r, r2, evs, h, hready => by
    simp only [processRoomSeq] at h
    rcases hstep : (roomPresenceHandler r s cache).outcome with e | ⟨rm, evs1⟩
    · rw [hstep] at h
      simp at h
    · rw [hstep] at h
      dsimp only at h
      rcases hrest : processRoomSeq cache rm rest with e | ⟨rf, evs2⟩
      · rw [hrest] at h
        simp at h
      · rw [hrest] at h
        simp only [Except.ok.injEq, Prod.mk.injEq] at h
        obtain ⟨h1, h2⟩ := h
        subst h1
        subst h2
        rw [countRosterComplete_append]
        simp [selfAvailReady, hstep] at hready
        rcases hready with ⟨⟨⟨hself, htyp⟩, hrec⟩, hpend⟩ | htail
        · have hfire := roomStep_fires_complete r s cache hself htyp hpend hrec
          rw [hfire] at hstep
          simp only [Except.ok.injEq, Prod.mk.injEq] at hstep
          obtain ⟨hm1, hm2⟩ := hstep
          subst hm1
          subst hm2
          have hrecm : (prof_handle_room_roster_complete r).roster_received
              = true := rfl
          have hz := (seq_roster cache rest _ rf evs2 hrest).2 hrecm
          rw [hz.2]
          rfl
        · by_cases hm : rm.roster_received = true
          · rw [ready_false_of_received cache rest rm hm] at htail
            cases htail
          · have hcnt := (roomStep_roster r s cache rm evs1 hstep).1
            have hnc : ¬(rm.roster_received = true ∧ r.roster_received = false) := by
              intro hx
              exact hm hx.1
            rw [if_neg hnc] at hcnt
            rw [hcnt, seq_ready cache rest rm rf evs2 hrest htail]

/-- C9 counterexample: the claim as stated fails.  Starting from a freshly
joined room, the sequence (self unavailable with nick-change marker, self
available under the new nick) contains a self available presence processed
while `roster_received` is false, yet zero room-roster-complete events are
emitted: the pending self nick change takes precedence and consumes the
self available stanza. -/
theorem roster_complete_claimed_cex :
    selfAvailWhileAwaiting [] (joinState "me")
        [cexSelfNickUnavail, cexSelfAvailAfter] = true
    ∧ processRoomSeq [] (joinState "me") [cexSelfNickUnavail, cexSelfAvailAfter]
        = Except.ok (⟨"me2", false, [], none, false⟩,
            [Event.roomNickChange "room@c" "me2"])
    ∧ countRosterComplete [Event.roomNickChange "room@c" "me2"] = 0 :=
  ⟨rfl, rfl, rfl⟩

/-- C9 (amended): for any stanza sequence processed for one room, at most
one room-roster-complete event is emitted, `roster_received` is monotone
(once true it stays true and no further completion event fires), and the
count is exactly one provided a self available presence is processed while
`roster_received` is false with no self nick change pending at that point;
moreover a member available stanza arriving while `roster_received` is false
inserts or updates the occupant entry and emits no event at all. -/
theorem roster_complete_once :
    (∀ (cache : List String) (stzs : List PresenceStanza)
      (r r2 : RoomState) (evs : List Event),
      processRoomSeq cache r stzs = Except.ok (r2, evs) →
      countRosterComplete evs ≤ 1
      ∧ (r.roster_received = true →
          r2.roster_received = true ∧ countRosterComplete evs = 0)
      ∧ (selfAvailReady cache r stzs = true → countRosterComplete evs = 1))
    ∧ (∀ (cache : List String) (r : RoomState) (s : PresenceStanza)
      (ck : Option String),
      s.selfPresence = false → s.typ = none → r.roster_received = false →
      (getCapsKey s cache).key = Except.ok ck →
      roomPresenceHandler r s cache =
        ⟨(getCapsKey s cache).queries,
         Except.ok (muc_add_to_roster r s.fromJid.resourcepart (showTextOf s)
           (statusTextOf s) ck, [])⟩) := by
  constructor
  · intro cache stzs r r2 evs h
    obtain ⟨hle, hmono⟩ := seq_roster cache stzs r r2 evs h
    exact ⟨hle, hmono, seq_ready cache stzs r r2 evs h⟩
  · intro cache r s ck hself htyp hrec hck
    simp [roomPresenceHandler, hself, htyp, hrec, hck,
      muc_get_roster_received]

/-- Witness for C9 at the one-stanza burst: the self available presence
right after joining fires exactly one roster-complete event, and a member
available stanza during the burst is recorded silently. -/
theorem roster_complete_once_witness :
    (countRosterComplete [Event.roomRosterComplete "room@c"] ≤ 1
      ∧ ((joinState "me").roster_received = true →
          (⟨"me", true, [], none, false⟩ : RoomState).roster_received = true
          ∧ countRosterComplete [Event.roomRosterComplete "room@c"] = 0)
      ∧ (selfAvailReady [] (joinState "me") [wJoinSelfAvail] = true →
          countRosterComplete [Event.roomRosterComplete "room@c"] = 1))
    ∧ roomPresenceHandler (joinState "me") wNickStanza2 ["K"] =
        ⟨(getCapsKey wNickStanza2 ["K"]).queries,
         Except.ok (muc_add_to_roster (joinState "me") "alice2"
           (showTextOf wNickStanza2) (statusTextOf wNickStanza2)
           (some "K"), [])⟩ :=
  ⟨roster_complete_once.1 [] [wJoinSelfAvail] (joinState "me")
    ⟨"me", true, [], none, false⟩ [Event.roomRosterComplete "room@c"] rfl,
   roster_complete_once.2 ["K"] (joinState "me") wNickStanza2 (some "K")
    rfl rfl rfl rfl⟩

end ProfPresence
